import Mathlib

/-!
Shallow embedding of `homeassistant/components/notify/windows.py`
(Windows Push Notification Services platform).

The registry is a Python dict mapping channel id (string) to a
schema-validated registration dict.  We model it as an association list
with Python dict semantics: lookup and update act on the first occurrence
of a key, insertion of a fresh key appends at the end, iteration follows
list order.  Real Python dicts have unique keys; theorems that need this
take a `Nodup` hypothesis on the key list.

External collaborators (the HTTP server, `requests`, `save_json`,
voluptuous validation) are modelled as oracle parameters: the outcome of
JSON parsing / schema validation is an inductive request value, and the
success of `save_json` is a boolean parameter.
-/

namespace Windows

/-- A registration dict as produced by `SUBSCRIPTION_SCHEMA`:
required `id` (string), required `channel` (url string),
optional `expiry` (None or non-negative int), optional `name` (string). -/
structure Registration where
  id : String
  channel : String
  expiry : Option Nat
  name : Option String
deriving DecidableEq, Repr

/-- The in-memory registry: Python dict from channel id to registration. -/
abbrev Registry := List (String × Registration)

/-- Python `d.get(k)`: value at the first occurrence of key `k`, if any. -/
def dictGet (r : Registry) (k : String) : Option Registration :=
  match r with
  | [] => none
  | (a, b) :: rest => if a = k then some b else dictGet rest k

/-- Python `d[k] = v`: replace the value at the first occurrence of `k`
in place, or append `(k, v)` when `k` is absent. -/
def dictSet (r : Registry) (k : String) (v : Registration) : Registry :=
  match r with
  | [] => [(k, v)]
  | (a, b) :: rest => if a = k then (a, v) :: rest else (a, b) :: dictSet rest k v

/-- Python `d.pop(k)`: remove the first occurrence of key `k`. -/
def dictPop (r : Registry) (k : String) : Registry :=
  match r with
  | [] => []
  | (a, b) :: rest => if a = k then rest else (a, b) :: dictPop rest k

/-- An HTTP response as produced by `HomeAssistantView.json_message`:
a message string and a status code (default 200). -/
structure Response where
  message : String
  status : Nat
deriving DecidableEq, Repr

def HTTP_BAD_REQUEST : Nat := 400
def HTTP_INTERNAL_SERVER_ERROR : Nat := 500
def HTTP_OK : Nat := 200

/-- Outcome of `await request.json()` followed by `SUBSCRIPTION_SCHEMA(data)`
for the POST handler.  `invalidJson` models `request.json()` raising
`ValueError`; `invalidSchema msg` models `vol.Invalid` with `msg` the
humanized error text; `valid data` models a payload that passed the schema. -/
inductive PostRequest where
  | invalidJson
  | invalidSchema (msg : String)
  | valid (data : Registration)

/-- `WindowsPushRegistrationView.post`.  `saveOk` models whether
`save_json` succeeds (`false` = it raises `HomeAssistantError`).
Returns the registry after the call and the response. -/
def post (registrations : Registry) (req : PostRequest) (saveOk : Bool) :
    Registry × Response :=
  match req with
  | .invalidJson => (registrations, ⟨"Invalid JSON", HTTP_BAD_REQUEST⟩)
  | .invalidSchema msg => (registrations, ⟨msg, HTTP_BAD_REQUEST⟩)
  | .valid data =>
    let channel_id := data.id
    let previous_registration := dictGet registrations channel_id
    let regs := dictSet registrations channel_id data
    if saveOk then
      (regs, ⟨"Push notification subscriber registered.", HTTP_OK⟩)
    else
      match previous_registration with
      | some prev =>
        (dictSet regs channel_id prev,
         ⟨"Error saving registration.", HTTP_INTERNAL_SERVER_ERROR⟩)
      | none =>
        (dictPop regs channel_id,
         ⟨"Error saving registration.", HTTP_INTERNAL_SERVER_ERROR⟩)

/-- Outcome of `await request.json()` for the DELETE handler.
`body cid` models a parsed body whose `id` field is the string `cid`
(`none` when the field is absent; a non-string `id` value can never equal
a stored string id, so it behaves like `none` in the comparison below). -/
inductive DeleteRequest where
  | invalidJson
  | body (channel_id : Option String)

/-- The search loop of `WindowsPushRegistrationView.delete`: iterate the
registry items and return the first `(key, registration)` whose
registration has an embedded `id` field equal to the requested id. -/
def findKey (regs : Registry) (channel_id : Option String) :
    Option (String × Registration) :=
  match regs with
  | [] => none
  | (key, registration) :: rest =>
    if some registration.id = channel_id then some (key, registration)
    else findKey rest channel_id

/-- `WindowsPushRegistrationView.delete`.  `saveOk` models whether
`save_json` succeeds.  The source tests `if not found:`, which in Python
is also taken when `found` is the empty string, not only when it is
`None`; the `found = ""` branch below mirrors that.  The pair returned
by `findKey` stands for both the loop result `found` and the value
`reg = registrations.pop(found)`: the scanned entry is the entry at key
`found`, because a Python dict has unique keys. -/
def delete (registrations : Registry) (req : DeleteRequest) (saveOk : Bool) :
    Registry × Response :=
  match req with
  | .invalidJson => (registrations, ⟨"Invalid JSON", HTTP_BAD_REQUEST⟩)
  | .body channel_id =>
    match findKey registrations channel_id with
    | none => (registrations, ⟨"Registration not found.", HTTP_OK⟩)
    | some (found, reg) =>
      if found = "" then
        (registrations, ⟨"Registration not found.", HTTP_OK⟩)
      else
        let regs := dictPop registrations found
        if saveOk then
          (regs, ⟨"Push notification subscriber unregistered.", HTTP_OK⟩)
        else
          (dictSet regs found reg,
           ⟨"Error saving registration.", HTTP_INTERNAL_SERVER_ERROR⟩)

/-- `self.access_token`: the cached bearer token and its expiry.
Times are integers counting seconds (the source compares `datetime`
values and adds `timedelta` values; only ordering and addition of
second-granularity durations matter here). -/
structure TokenState where
  token : Option String
  expiry : Int
deriving DecidableEq, Repr

/-- Outcome of the token request in `get_token`: `httpError` models
`requests.post` raising, `jsonError` models `resp.json()` raising
`ValueError`, and `fields e t` models a decoded JSON body whose
`expires_in` key is `e` and whose `access_token` key is `t`
(`none` = key absent, so subscripting raises `KeyError`). -/
inductive TokenFetchResult where
  | httpError
  | jsonError
  | fields (expires_in : Option Int) (access_token : Option String)

/-- `WindowsNotificationService.get_token`.  Returns the token cache
after the call, whether a network request was issued, and either the
token returned to the caller or the description of the exception that
propagates.  `now` stands for `datetime.now()` (the source calls it twice
a few lines apart; both calls are modelled as the same instant), and
`timedelta(minutes=5)` is 5 * 60 seconds.  The source reads
`resp_json[expires_in]` first and reads `resp_json[access_token]` on the
right-hand side of the first assignment, so both reads precede both cache
writes; the match order below mirrors that. -/
def get_token (st : TokenState) (now : Int) (fetch : TokenFetchResult) :
    TokenState × Bool × Except String (Option String) :=
  if st.expiry < now + 5 * 60 then
    match fetch with
    | .httpError => (st, true, .error "requests.post raised")
    | .jsonError => (st, true, .error "resp.json raised ValueError")
    | .fields expires_in access_token =>
      match expires_in with
      | none => (st, true, .error "KeyError: expires_in")
      | some e =>
        match access_token with
        | none => (st, true, .error "KeyError: access_token")
        | some tok =>
          ({ token := some tok, expiry := now + e }, true, .ok (some tok))
  else
    (st, false, .ok st.token)

/-- The for-loop of `WindowsNotificationService.send_message` over the
resolved target list: a target that is no registry key is logged as an
error and skipped with `continue`; a known target gets a POST of the
toast body to its channel URL.  Returns the channel URLs posted to and
the targets logged as invalid, in loop order. -/
def send_loop (regs : Registry) : List String → List String × List String
  | [] => ([], [])
  | target :: rest =>
    match dictGet regs target with
    | none =>
      let r := send_loop regs rest
      (r.1, target :: r.2)
    | some target_channel =>
      let r := send_loop regs rest
      (target_channel.channel :: r.1, r.2)

/-- The target-dispatch part of `WindowsNotificationService.send_message`:
`targets = kwargs.get(ATTR_TARGET)`; `if not targets:` replaces a `None`
or empty value by `self.registrations.keys()`; then the loop runs.  The
toast body and the headers are pure string formatting and are not
modelled; token acquisition is modelled by `get_token`. -/
def send_message (regs : Registry) (targets : Option (List String)) :
    List String × List String :=
  let ts := match targets with
    | none => regs.map Prod.fst
    | some l => if l.isEmpty then regs.map Prod.fst else l
  send_loop regs ts

end Windows

/-- Concrete registration used in witnesses and counterexamples. -/
def regA : Windows.Registration :=
  ⟨"a", "http://example.org/channel-a", none, none⟩

/-- Concrete registration used in witnesses and counterexamples. -/
def regB : Windows.Registration :=
  ⟨"b", "http://example.org/channel-b", some 3, some "device-b"⟩

namespace Windows

lemma dictGet_dictSet_self (r : Registry) (k : String) (v : Registration) :
    dictGet (dictSet r k v) k = some v := by
  induction r with
  | nil => simp [dictGet, dictSet]
  | cons p rest ih =>
    obtain ⟨a, b⟩ := p
    by_cases h : a = k <;> simp [dictGet, dictSet, h, ih]

lemma dictGet_dictSet_ne (r : Registry) (k k' : String) (v : Registration)
    (h : k' ≠ k) : dictGet (dictSet r k v) k' = dictGet r k' := by
  have h1 : ¬ k = k' := fun hk => h hk.symm
  induction r with
  | nil => simp [dictGet, dictSet, h1]
  | cons p rest ih =>
    obtain ⟨a, b⟩ := p
    by_cases ha : a = k
    · simp [dictGet, dictSet, ha, h1]
    · simp [dictGet, dictSet, ha, ih]

lemma dictSet_restore (r : Registry) (k : String) (v v₀ : Registration)
    (h : dictGet r k = some v₀) : dictSet (dictSet r k v) k v₀ = r := by
  induction r with
  | nil => simp [dictGet] at h
  | cons p rest ih =>
    obtain ⟨a, b⟩ := p
    by_cases ha : a = k
    · simp [dictGet, ha] at h
      simp [dictSet, ha, h]
    · simp [dictGet, ha] at h
      simp [dictSet, ha, ih h]

lemma dictPop_dictSet_new (r : Registry) (k : String) (v : Registration)
    (h : dictGet r k = none) : dictPop (dictSet r k v) k = r := by
  induction r with
  | nil => simp [dictSet, dictPop]
  | cons p rest ih =>
    obtain ⟨a, b⟩ := p
    by_cases ha : a = k
    · simp [dictGet, ha] at h
    · simp [dictGet, ha] at h
      simp [dictSet, dictPop, ha, ih h]

lemma dictGet_dictPop_ne (r : Registry) (k k' : String) (h : k' ≠ k) :
    dictGet (dictPop r k) k' = dictGet r k' := by
  induction r with
  | nil => rfl
  | cons p rest ih =>
    obtain ⟨a, b⟩ := p
    by_cases ha : a = k
    · have h1 : ¬ k = k' := fun hh => h hh.symm
      simp [dictPop, dictGet, ha, h1]
    · simp [dictPop, dictGet, ha, ih]

lemma findKey_mem (regs : Registry) (cid : Option String) (key : String)
    (reg : Registration) (h : findKey regs cid = some (key, reg)) :
    (key, reg) ∈ regs := by
  induction regs with
  | nil => simp [findKey] at h
  | cons p rest ih =>
    obtain ⟨a, b⟩ := p
    by_cases hb : some b.id = cid
    · simp only [findKey, if_pos hb, Option.some.injEq, Prod.mk.injEq] at h
      obtain ⟨h1, h2⟩ := h
      rw [← h1, ← h2]
      exact List.mem_cons_self _ _
    · simp only [findKey, if_neg hb] at h
      exact List.mem_cons_of_mem _ (ih h)

lemma dictGet_of_mem_nodup (regs : Registry) (k : String) (v : Registration)
    (hm : (k, v) ∈ regs) (hnd : (regs.map Prod.fst).Nodup) :
    dictGet regs k = some v := by
  induction regs with
  | nil => simp at hm
  | cons p rest ih =>
    obtain ⟨a, b⟩ := p
    simp only [List.map_cons, List.nodup_cons] at hnd
    rcases List.mem_cons.mp hm with heq | hmem
    · rw [Prod.mk.injEq] at heq
      obtain ⟨h1, h2⟩ := heq
      simp [dictGet, h1, h2]
    · have hak : ¬ a = k := by
        intro hak
        exact hnd.1 (hak ▸ List.mem_map_of_mem Prod.fst hmem)
      simp [dictGet, hak, ih hmem hnd.2]

lemma findKey_eq_none (regs : Registry) (cid : Option String)
    (h : ∀ p ∈ regs, some (Registration.id p.2) ≠ cid) :
    findKey regs cid = none := by
  induction regs with
  | nil => rfl
  | cons p rest ih =>
    obtain ⟨a, b⟩ := p
    have hb : ¬ some b.id = cid := h (a, b) (List.mem_cons_self _ _)
    simp only [findKey, if_neg hb]
    exact ih (fun q hq => h q (List.mem_cons_of_mem _ hq))

lemma findKey_isSome_iff (regs : Registry) (cid : Option String) :
    (findKey regs cid).isSome = true ↔
      ∃ p ∈ regs, some (Registration.id p.2) = cid := by
  induction regs with
  | nil => simp [findKey]
  | cons p rest ih =>
    obtain ⟨a, b⟩ := p
    by_cases hb : some b.id = cid
    · simp only [findKey, if_pos hb, Option.isSome_some, true_iff]
      exact ⟨(a, b), List.mem_cons_self _ _, hb⟩
    · simp only [findKey, if_neg hb, ih]
      constructor
      · rintro ⟨q, hq, hid⟩
        exact ⟨q, List.mem_cons_of_mem _ hq, hid⟩
      · rintro ⟨q, hq, hid⟩
        rcases List.mem_cons.mp hq with heq | hmem
        · rw [heq] at hid
          exact absurd hid hb
        · exact ⟨q, hmem, hid⟩

lemma send_loop_spec (regs : Registry) (l : List String) :
    send_loop regs l =
      (l.filterMap (fun t => (dictGet regs t).map Registration.channel),
       l.filter (fun t => (dictGet regs t).isNone)) := by
  induction l with
  | nil => rfl
  | cons t rest ih =>
    cases h : dictGet regs t with
    | none => simp [send_loop, h, ih, List.filterMap_cons, List.filter_cons]
    | some reg => simp [send_loop, h, ih, List.filterMap_cons, List.filter_cons]

lemma send_loop_cons_ne (a : String) (b : Registration) (regs : Registry)
    (l : List String) (h : ∀ t ∈ l, t ≠ a) :
    send_loop ((a, b) :: regs) l = send_loop regs l := by
  induction l with
  | nil => rfl
  | cons t rest ih =>
    have ht : ¬ a = t := fun hh => (h t (List.mem_cons_self _ _)) hh.symm
    have ih2 := ih (fun q hq => h q (List.mem_cons_of_mem _ hq))
    cases hg : dictGet regs t with
    | none => simp [send_loop, dictGet, ht, hg, ih2]
    | some c => simp [send_loop, dictGet, ht, hg, ih2]

lemma send_loop_all_keys (regs : Registry)
    (hnd : (regs.map Prod.fst).Nodup) :
    send_loop regs (regs.map Prod.fst) =
      (regs.map (fun p => Registration.channel p.2), []) := by
  induction regs with
  | nil => rfl
  | cons p rest ih =>
    obtain ⟨a, b⟩ := p
    simp only [List.map_cons, List.nodup_cons] at hnd
    have hstep : send_loop ((a, b) :: rest) (List.map Prod.fst rest) =
        send_loop rest (List.map Prod.fst rest) :=
      send_loop_cons_ne a b rest _ (fun t ht => by
        intro hta
        exact hnd.1 (hta ▸ ht))
    simp [send_loop, dictGet, hstep, ih hnd.2]

end Windows

/-- C1: a valid POST whose persistence fails leaves the registry exactly
as it was before the request (previous record restored in place, or key
removed when there was none) and returns a 500 response. -/
theorem post_rollback_on_save_failure (regs : Windows.Registry)
    (data : Windows.Registration) :
    Windows.post regs (Windows.PostRequest.valid data) false =
      (regs, ⟨"Error saving registration.", Windows.HTTP_INTERNAL_SERVER_ERROR⟩) := by
  unfold Windows.post
  cases h : Windows.dictGet regs data.id with
  | none =>
    simp [h, Windows.dictPop_dictSet_new regs data.id data h]
  | some prev =>
    simp [h, Windows.dictSet_restore regs data.id data prev h]

/-- C5: a schema-valid POST with successful persistence unconditionally
overwrites the registry entry at the payload id with the new registration
(last write wins, no field merge), so a subsequent lookup of that id
returns exactly the newly stored fields, also when an entry for that id
already existed. -/
theorem post_upsert_overwrites (regs : Windows.Registry)
    (data : Windows.Registration) :
    Windows.post regs (Windows.PostRequest.valid data) true =
      (Windows.dictSet regs data.id data,
       ⟨"Push notification subscriber registered.", Windows.HTTP_OK⟩) ∧
    Windows.dictGet (Windows.post regs (Windows.PostRequest.valid data) true).1
        data.id = some data := by
  refine ⟨rfl, ?_⟩
  show Windows.dictGet (Windows.dictSet regs data.id data) data.id = some data
  exact Windows.dictGet_dictSet_self regs data.id data

/-- C7: a POST whose body is malformed JSON or fails the subscription
schema returns a 400 response carrying a description of the violation and
leaves the registry completely unchanged, whatever the persistence backend
would have done. -/
theorem post_invalid_input_unchanged (regs : Windows.Registry) (msg : String)
    (saveOk : Bool) :
    Windows.post regs Windows.PostRequest.invalidJson saveOk =
      (regs, ⟨"Invalid JSON", Windows.HTTP_BAD_REQUEST⟩) ∧
    Windows.post regs (Windows.PostRequest.invalidSchema msg) saveOk =
      (regs, ⟨msg, Windows.HTTP_BAD_REQUEST⟩) :=
  ⟨rfl, rfl⟩

/-- C8: a DELETE whose requested id matches no stored registration's
embedded id field answers with a success (200) "not found" message and
does not alter the registry. -/
theorem delete_absent_not_found (regs : Windows.Registry) (cid : Option String)
    (saveOk : Bool)
    (h : ∀ p ∈ regs, some (Windows.Registration.id p.2) ≠ cid) :
    Windows.delete regs (Windows.DeleteRequest.body cid) saveOk =
      (regs, ⟨"Registration not found.", Windows.HTTP_OK⟩) := by
  simp [Windows.delete, Windows.findKey_eq_none regs cid h]

/-- Witness for C8 at a concrete input: one stored registration, request
for an id that matches nothing. -/
theorem delete_absent_not_found_witness :
    Windows.delete [("a", regA)] (Windows.DeleteRequest.body (some "z")) true =
      ([("a", regA)], ⟨"Registration not found.", Windows.HTTP_OK⟩) :=
  delete_absent_not_found [("a", regA)] (some "z") true
    (by
      intro p hp
      rw [List.mem_singleton] at hp
      subst hp
      decide)

/-- C4 counterexample: the registry holds a registration whose embedded id
equals the requested id, but it is stored under the empty-string key; the
source tests `if not found:` on the key, the empty string is falsy in
Python, so the matching entry is NOT removed: the handler answers
"not found" (200) and leaves the registry unchanged, against the claim
that every embedded-id match is removed and answered with success. -/
theorem delete_match_not_removed_counterexample :
    regA.id = "a" ∧
    Windows.delete [("", regA)] (Windows.DeleteRequest.body (some "a")) true =
      ([("", regA)], ⟨"Registration not found.", Windows.HTTP_OK⟩) :=
  ⟨rfl, rfl⟩

/-- C4 (amended): the DELETE search matches the requested id against each
stored registration's embedded id field (a match exists exactly when some
entry's embedded id equals the requested id), and whenever the first match
is stored under a non-empty key, that entry is removed, the registry is
persisted and a success response is returned; a match stored under the
empty-string key is treated as not found. -/
theorem delete_match_removed (regs : Windows.Registry) (cid : Option String)
    (key : String) (reg : Windows.Registration)
    (hfind : Windows.findKey regs cid = some (key, reg)) (hkey : key ≠ "") :
    Windows.delete regs (Windows.DeleteRequest.body cid) true =
      (Windows.dictPop regs key,
       ⟨"Push notification subscriber unregistered.", Windows.HTTP_OK⟩) ∧
    ((Windows.findKey regs cid).isSome = true ↔
      ∃ p ∈ regs, some (Windows.Registration.id p.2) = cid) := by
  constructor
  · simp [Windows.delete, hfind, hkey]
  · exact Windows.findKey_isSome_iff regs cid

/-- Witness for the amended C4 at a concrete input: a registration under
a non-empty key is removed and success is returned. -/
theorem delete_match_removed_witness :
    Windows.delete [("a", regA)] (Windows.DeleteRequest.body (some "a")) true =
      (Windows.dictPop [("a", regA)] "a",
       ⟨"Push notification subscriber unregistered.", Windows.HTTP_OK⟩) :=
  (delete_match_removed [("a", regA)] (some "a") "a" regA rfl (by decide)).1

/-- C2 counterexample: a stored registration matches the requested id but
sits under the empty-string key, so even with a failing persistence
backend the handler never reaches the persistence step: it answers
"not found" with status 200, not the server error (500) the claim
requires for every matching DELETE whose persistence fails. -/
theorem delete_save_failure_not_500_counterexample :
    regB.id = "b" ∧
    Windows.delete [("", regB)] (Windows.DeleteRequest.body (some "b")) false =
      ([("", regB)], ⟨"Registration not found.", Windows.HTTP_OK⟩) :=
  ⟨rfl, rfl⟩

/-- C2 (amended): for a registry with unique keys (a Python dict), a
DELETE whose requested id matches a stored registration at a non-empty
key, when persistence fails, reinserts the removed registration under its
original key — the resulting registry is equal to the pre-request registry
as a key-to-registration mapping (the reinserted entry moves to the end of
iteration order) — and returns a 500 response. -/
theorem delete_rollback_on_save_failure (regs : Windows.Registry)
    (cid : Option String) (key : String) (reg : Windows.Registration)
    (hnd : (regs.map Prod.fst).Nodup)
    (hfind : Windows.findKey regs cid = some (key, reg)) (hkey : key ≠ "") :
    (∀ k, Windows.dictGet
        (Windows.delete regs (Windows.DeleteRequest.body cid) false).1 k =
      Windows.dictGet regs k) ∧
    (Windows.delete regs (Windows.DeleteRequest.body cid) false).2 =
      ⟨"Error saving registration.", Windows.HTTP_INTERNAL_SERVER_ERROR⟩ := by
  have hres : Windows.delete regs (Windows.DeleteRequest.body cid) false =
      (Windows.dictSet (Windows.dictPop regs key) key reg,
       ⟨"Error saving registration.", Windows.HTTP_INTERNAL_SERVER_ERROR⟩) := by
    simp [Windows.delete, hfind, hkey]
  rw [hres]
  refine ⟨?_, rfl⟩
  intro k
  by_cases hk : k = key
  · subst hk
    rw [Windows.dictGet_dictSet_self]
    exact (Windows.dictGet_of_mem_nodup regs k reg
      (Windows.findKey_mem regs cid k reg hfind) hnd).symm
  · rw [Windows.dictGet_dictSet_ne _ _ _ _ hk,
        Windows.dictGet_dictPop_ne _ _ _ hk]

/-- Witness for the amended C2 at a concrete input: rollback restores the
lookup at the deleted key and the response is a 500. -/
theorem delete_rollback_on_save_failure_witness :
    Windows.dictGet
        (Windows.delete [("b", regB)]
          (Windows.DeleteRequest.body (some "b")) false).1 "b" =
      Windows.dictGet [("b", regB)] "b" ∧
    (Windows.delete [("b", regB)]
        (Windows.DeleteRequest.body (some "b")) false).2 =
      ⟨"Error saving registration.", Windows.HTTP_INTERNAL_SERVER_ERROR⟩ :=
  ⟨(delete_rollback_on_save_failure [("b", regB)] (some "b") "b" regB
      (by decide) rfl (by decide)).1 "b",
   (delete_rollback_on_save_failure [("b", regB)] (some "b") "b" regB
      (by decide) rfl (by decide)).2⟩

/-- C3: the cached token is refreshed exactly when its expiry lies before
now + 5 minutes.  A cached token expiring earlier than that (for example
4 minutes from now) triggers a client-credentials token request, and on a
well-formed response the returned token is cached with expiry now plus
the returned lifetime; a cached token expiring at or after now + 5
minutes (for example 6 minutes from now) is returned with no network
request and no cache mutation. -/
theorem get_token_refresh_window (st : Windows.TokenState) (now e : Int)
    (tok : String) (fetch : Windows.TokenFetchResult) :
    (st.expiry < now + 5 * 60 →
      Windows.get_token st now
          (Windows.TokenFetchResult.fields (some e) (some tok)) =
        (⟨some tok, now + e⟩, true, Except.ok (some tok))) ∧
    (now + 5 * 60 ≤ st.expiry →
      Windows.get_token st now fetch = (st, false, Except.ok st.token)) := by
  constructor
  · intro h
    unfold Windows.get_token
    rw [if_pos h]
  · intro h
    have h2 : ¬ st.expiry < now + 5 * 60 := not_lt.mpr h
    unfold Windows.get_token
    rw [if_neg h2]

/-- Witness for C3 at the inputs named by the claim: expiry 4 minutes
from now (240 seconds, now = 0) refreshes and caches; expiry 6 minutes
from now (360 seconds) is reused with no request issued. -/
theorem get_token_refresh_window_witness :
    Windows.get_token ⟨some "old", 240⟩ 0
        (Windows.TokenFetchResult.fields (some 3600) (some "new")) =
      (⟨some "new", 0 + 3600⟩, true, Except.ok (some "new")) ∧
    Windows.get_token ⟨some "old", 360⟩ 0 Windows.TokenFetchResult.httpError =
      (⟨some "old", 360⟩, false, Except.ok (some "old")) :=
  ⟨(get_token_refresh_window ⟨some "old", 240⟩ 0 3600 "new"
      Windows.TokenFetchResult.httpError).1 (by decide),
   (get_token_refresh_window ⟨some "old", 360⟩ 0 0 "x"
      Windows.TokenFetchResult.httpError).2 (by decide)⟩

/-- C10: whenever the token refresh path fails (the HTTP request raises,
the response body is not JSON, or the expires_in or access_token field is
missing), the cached token state is exactly what it was before the call:
both fields are read before either cache field is assigned. -/
theorem get_token_failure_preserves_cache (st : Windows.TokenState)
    (now : Int) (fetch : Windows.TokenFetchResult) (msg : String)
    (h : (Windows.get_token st now fetch).2.2 = Except.error msg) :
    (Windows.get_token st now fetch).1 = st := by
  unfold Windows.get_token at h ⊢
  by_cases hc : st.expiry < now + 5 * 60
  · simp only [if_pos hc] at h ⊢
    cases fetch with
    | httpError => rfl
    | jsonError => rfl
    | fields e t =>
      cases e with
      | none => rfl
      | some e2 =>
        cases t with
        | none => rfl
        | some tok => simp at h
  · simp only [if_neg hc]

/-- Witness for C10 at a concrete input: a response missing the
access_token field raises after the refresh check and the cache is
unchanged. -/
theorem get_token_failure_preserves_cache_witness :
    (Windows.get_token ⟨some "old", 240⟩ 0
        (Windows.TokenFetchResult.fields (some 3600) none)).2.2 =
      Except.error "KeyError: access_token" ∧
    (Windows.get_token ⟨some "old", 240⟩ 0
        (Windows.TokenFetchResult.fields (some 3600) none)).1 =
      ⟨some "old", 240⟩ :=
  ⟨rfl,
   get_token_failure_preserves_cache ⟨some "old", 240⟩ 0
     (Windows.TokenFetchResult.fields (some 3600) none)
     "KeyError: access_token" rfl⟩

/-- C6: with an explicit non-empty target list, the send loop posts
exactly to the channels of the targets present as registry keys and
collects exactly the absent targets as logged errors (each unknown id is
skipped, no exception surfaces — the loop is a total function); with
targets omitted (None), the notification goes to every registry entry. -/
theorem send_message_skips_unknown_targets (regs : Windows.Registry)
    (targets : List String) (hne : targets ≠ [])
    (hnd : (regs.map Prod.fst).Nodup) :
    Windows.send_message regs (some targets) =
      (targets.filterMap
         (fun t => (Windows.dictGet regs t).map Windows.Registration.channel),
       targets.filter (fun t => (Windows.dictGet regs t).isNone)) ∧
    Windows.send_message regs none =
      (regs.map (fun p => Windows.Registration.channel p.2), []) := by
  constructor
  · have he : targets.isEmpty = false := by
      cases targets with
      | nil => exact absurd rfl hne
      | cons t r => rfl
    simp [Windows.send_message, he, Windows.send_loop_spec]
  · simp [Windows.send_message, Windows.send_loop_all_keys regs hnd]

/-- Witness for C6 at a concrete input: one unknown and one known target;
only the known channel is posted to and the unknown id is logged. -/
theorem send_message_skips_unknown_targets_witness :
    Windows.send_message [("a", regA)] (some ["z", "a"]) =
      (["z", "a"].filterMap
         (fun t => (Windows.dictGet [("a", regA)] t).map
           Windows.Registration.channel),
       ["z", "a"].filter
         (fun t => (Windows.dictGet [("a", regA)] t).isNone)) ∧
    Windows.send_message [("a", regA)] none =
      ([("a", regA)].map (fun p => Windows.Registration.channel p.2), []) :=
  send_message_skips_unknown_targets [("a", regA)] ["z", "a"]
    (by decide) (by decide)

/-- C9: `if not targets:` tests Python truthiness, so an explicit empty
target list is treated exactly like an omitted one: the send fans out to
every registry entry, and a caller cannot request a send to zero
targets. -/
theorem send_message_empty_targets (regs : Windows.Registry)
    (hnd : (regs.map Prod.fst).Nodup) :
    Windows.send_message regs (some []) = Windows.send_message regs none ∧
    Windows.send_message regs (some []) =
      (regs.map (fun p => Windows.Registration.channel p.2), []) := by
  refine ⟨rfl, ?_⟩
  show Windows.send_loop regs (regs.map Prod.fst) = _
  exact Windows.send_loop_all_keys regs hnd

/-- Witness for C9 at a concrete input. -/
theorem send_message_empty_targets_witness :
    Windows.send_message [("a", regA)] (some []) =
      Windows.send_message [("a", regA)] none ∧
    Windows.send_message [("a", regA)] (some []) =
      ([("a", regA)].map (fun p => Windows.Registration.channel p.2), []) :=
  send_message_empty_targets [("a", regA)] (by decide)
